import Mathlib

/-!
Shallow embedding of the ORM core in `www/orm.py`: the field descriptors,
the metaclass that generates SQL templates, the pooled execution layer
(`select` / `execute`), and the `Model` CRUD surface.

Python-level conventions used by the embedding:
* a Python value flowing through the ORM is a `Val`; Python's `None` is
  `Val.vNone`;
* a class body (`attrs`) is an ordered association list `String × AttrVal`
  (Python 3.7+ dicts preserve insertion order);
* Python truthiness on strings (`if where:`, `if primaryKey:`, `x or y`)
  is modelled explicitly (`pyOr`, empty string is falsy);
* the database driver is abstracted by `DBEnv` (outcomes of begin /
  execute / commit / rollback) for writes and by a result function
  `db : String → List Val → List Row` for reads; `fetchmany n` returns
  the first `n` of the cursor's rows, `fetchall` all of them;
* exceptions are `Except`; an action trace (`Act`) records which
  connection-level calls happen and in which order.
-/

set_option autoImplicit false

namespace Orm

/-- A runtime value, `Val.vNone` standing for Python `None`. -/
inductive Val where
  | vNone : Val
  | vInt (n : Int) : Val
  | vStr (s : String) : Val
  | vBool (b : Bool) : Val
  deriving DecidableEq

/-- A field's `default` attribute when it is not `None`: either a plain
value or a zero-argument callable (generator). -/
inductive PyDefault where
  | val (v : Val) : PyDefault
  | gen (f : Unit → Val) : PyDefault

/-- `Field.__init__` stores name, column type, primary-key flag and
default; `name = none` models Python `name=None`. -/
structure Field where
  name : Option String
  column_type : String
  primary_key : Bool
  default : Option PyDefault

/-- `StringField(name, primary_key, default, ddl)`. -/
def StringField (name : Option String) (primary_key : Bool)
    (default : Option PyDefault) (ddl : String) : Field :=
  ⟨name, ddl, primary_key, default⟩

/-- `BooleanField(name, default)`: never a primary key, type `boolean`. -/
def BooleanField (name : Option String) (default : Option PyDefault) : Field :=
  ⟨name, "boolean", false, default⟩

/-- `IntegerField(name, primary_key, default)`: type `bigint`. -/
def IntegerField (name : Option String) (primary_key : Bool)
    (default : Option PyDefault) : Field :=
  ⟨name, "bigint", primary_key, default⟩

/-- `FloatField(name, primary_key, default)`: type `real`. -/
def FloatField (name : Option String) (primary_key : Bool)
    (default : Option PyDefault) : Field :=
  ⟨name, "real", primary_key, default⟩

/-- `TextField(name, default)`: never a primary key, type `text`. -/
def TextField (name : Option String) (default : Option PyDefault) : Field :=
  ⟨name, "text", false, default⟩

/-- Python `a or b` on an optional string: `b` when `a` is `None` or empty. -/
def pyOr (a : Option String) (b : String) : String :=
  match a with
  | none => b
  | some s => if s.isEmpty then b else s

/-- Truthiness of the `primaryKey` variable (`None` or a string). -/
def truthyOptStr (a : Option String) : Bool :=
  match a with
  | none => false
  | some s => !s.isEmpty

/-- Python `', '.join(L)` / `' '.join(L)`. -/
def joinSep (sep : String) : List String → String
  | [] => ""
  | [a] => a
  | a :: b :: rest => a ++ sep ++ joinSep sep (b :: rest)

/-- `create_args_string(num)`: `num` placeholders joined by `', '`. -/
def create_args_string (num : Nat) : String :=
  joinSep ", " (List.replicate num "?")

/-- A row returned by the `DictCursor`: column name to value, in order. -/
abbrev Row := List (String × Val)

/-- Connection-level calls, recorded in issue order. -/
inductive Act where
  | begin : Act
  | exec : Act
  | commit : Act
  | rollback : Act
  deriving DecidableEq

/-- Outcomes the underlying driver gives to each connection call; error
codes are `Nat`. `execR` may depend on the statement and its arguments. -/
structure DBEnv where
  beginR : Except Nat Unit
  execR : String → List Val → Except Nat Nat
  commitR : Except Nat Unit
  rollbackR : Except Nat Unit

/-- `execute(sql, args, autocommit)` from `orm.py`: begin when not
autocommitting, run the statement, commit; on any exception roll back
(when not autocommitting) and re-raise. An exception raised by
`conn.rollback()` itself propagates instead of the original one, exactly
as in Python, where an exception inside the `except` block preempts the
bare `raise`. Returns the trace of connection calls and the outcome. -/
def executeModel (env : DBEnv) (sql : String) (args : List Val)
    (autocommit : Bool) : List Act × Except Nat Nat :=
  if autocommit then
    match env.execR sql args with
    | .ok n => ([.exec], .ok n)
    | .error e => ([.exec], .error e)
  else
    match env.beginR with
    | .error e => ([.begin], .error e)
    | .ok _ =>
      match env.execR sql args with
      | .error e =>
        match env.rollbackR with
        | .ok _ => ([.begin, .exec, .rollback], .error e)
        | .error r => ([.begin, .exec, .rollback], .error r)
      | .ok n =>
        match env.commitR with
        | .ok _ => ([.begin, .exec, .commit], .ok n)
        | .error c =>
          match env.rollbackR with
          | .ok _ => ([.begin, .exec, .commit, .rollback], .error c)
          | .error r => ([.begin, .exec, .commit, .rollback], .error r)

/-- `select(sql, args, size)`: run the statement (never beginning a
transaction) against the read model `db`, then `fetchmany(size)` when
`size` is truthy (a nonzero number) and `fetchall()` otherwise; note
Python's `if size:` makes `size=0` take the `fetchall` branch.
`args or ()` maps an absent argument list to the empty one. -/
def selectModel (db : String → List Val → List Row) (sql : String)
    (args : Option (List Val)) (size : Option Nat) : List Act × List Row :=
  let rs := db sql (args.getD [])
  ([.exec],
    match size with
    | some n => if n ≠ 0 then rs.take n else rs
    | none => rs)

/-- A value found in a class body: a `Field` descriptor, the `__table__`
string, or anything else (methods, docstrings, ...). -/
inductive AttrVal where
  | fld (f : Field) : AttrVal
  | tbl (s : String) : AttrVal
  | other : AttrVal

/-- The two definition-time exceptions of `ModelMetaclass.__new__`. -/
inductive DefErr where
  | duplicatePrimaryKey (k : String) : DefErr
  | missingPrimaryKey : DefErr
  deriving DecidableEq

/-- The metadata the metaclass stores on a `Model` subclass. -/
structure Meta where
  mappings : List (String × Field)
  tableName : String
  primary_key : String
  fields : List String
  selectT : String
  insertT : String
  updateT : String
  deleteT : String

/-- `attrs.get('__table__', None)` (only a string counts). -/
def getTable : List (String × AttrVal) → Option String
  | [] => none
  | (k, v) :: rest =>
    if k = "__table__" then
      match v with
      | .tbl s => some s
      | _ => none
    else getTable rest

/-- The scanning loop of `ModelMetaclass.__new__`: walk the class body in
order, collect `Field` attributes into `mappings`, classify each as the
primary key or a regular field. A second primary key while `primaryKey`
is truthy raises citing the current attribute name; after the loop a
falsy `primaryKey` raises `Primary key not found`. -/
def scanAttrs : List (String × AttrVal) → Option String → List String →
    List (String × Field) →
    Except DefErr (List (String × Field) × List String × String)
  | [], pk, fields, mappings =>
    if truthyOptStr pk then .ok (mappings, fields, pk.getD "")
    else .error .missingPrimaryKey
  | (k, v) :: rest, pk, fields, mappings =>
    match v with
    | .fld f =>
      if f.primary_key then
        if truthyOptStr pk then .error (.duplicatePrimaryKey k)
        else scanAttrs rest (some k) fields (mappings ++ [(k, f)])
      else scanAttrs rest pk (fields ++ [k]) (mappings ++ [(k, f)])
    | _ => scanAttrs rest pk fields mappings

/-- Backtick quoting used for column names: `'`%s`' % f`. -/
def escape (f : String) : String := "`" ++ f ++ "`"

/-- The column name the update template uses for attribute `f`:
`mappings.get(f).name or f`. -/
def updCol (mappings : List (String × Field)) (f : String) : String :=
  match mappings.lookup f with
  | some fl => pyOr fl.name f
  | none => f

/-- `__select__`. -/
def mkSelect (tableName pk : String) (fields : List String) : String :=
  "select `" ++ pk ++ "`, " ++ joinSep ", " (fields.map escape) ++
    " from `" ++ tableName ++ "`"

/-- `__insert__`. -/
def mkInsert (tableName pk : String) (fields : List String) : String :=
  "insert into `" ++ tableName ++ "` (" ++ joinSep ", " (fields.map escape) ++
    ", `" ++ pk ++ "`) values (" ++ create_args_string (fields.length + 1) ++ ")"

/-- `__update__`, over the already-resolved column names. -/
def mkUpdate (tableName pk : String) (cols : List String) : String :=
  "update `" ++ tableName ++ "` set " ++
    joinSep ", " (cols.map fun c => "`" ++ c ++ "`=?") ++
    " where `" ++ pk ++ "`=?"

/-- `__delete__`. -/
def mkDelete (tableName pk : String) : String :=
  "delete from `" ++ tableName ++ "` where `" ++ pk ++ "`=?"

/-- Assemble the stored metadata from the scan result. -/
def buildMeta (tableName : String)
    (scan : List (String × Field) × List String × String) : Meta :=
  { mappings := scan.1
    tableName := tableName
    primary_key := scan.2.2
    fields := scan.2.1
    selectT := mkSelect tableName scan.2.2 scan.2.1
    insertT := mkInsert tableName scan.2.2 scan.2.1
    updateT := mkUpdate tableName scan.2.2 (scan.2.1.map (updCol scan.1))
    deleteT := mkDelete tableName scan.2.2 }

/-- `ModelMetaclass.__new__`: the `Model` base class itself gets no
metadata (`.ok none`); a subclass is scanned, `tableName` defaults to the
class name when `__table__` is absent or falsy, and on success the four
templates are generated. -/
def modelMetaclassNew (name : String) (attrs : List (String × AttrVal)) :
    Except DefErr (Option Meta) :=
  if name = "Model" then .ok none
  else
    match scanAttrs attrs none [] [] with
    | .error e => .error e
    | .ok scan => .ok (some (buildMeta (pyOr (getTable attrs) name) scan))

/-- An instance's backing dict (the `Model` is a `dict` subclass). A key
that is absent reads as `None` via `getattr(self, key, None)`. -/
abbrev Store := List (String × Val)

/-- `getValue(key)`: `getattr(self, key, None)`. -/
def getValue (store : Store) (key : String) : Val :=
  (store.lookup key).getD .vNone

/-- Resolve a default: call it when callable. -/
def evalDefault : PyDefault → Val
  | .val v => v
  | .gen f => f ()

/-- `getValueOrDefault(key)`: the set value when it is not `None`, else
the field's default (invoking a callable), which is also written back to
the instance with `setattr`. Returns the value and the updated store. -/
def getValueOrDefault (mappings : List (String × Field)) (store : Store)
    (key : String) : Val × Store :=
  let value := getValue store key
  if value = .vNone then
    match mappings.lookup key with
    | some field =>
      match field.default with
      | some d =>
        let v := evalDefault d
        (v, (key, v) :: store)
      | none => (value, store)
    | none => (value, store)
  else (value, store)

/-- The argument list `save` builds — `getValueOrDefault` over the
regular fields in declaration order, then over the primary key — threading
the `setattr` side effects through the store. Returns the arguments and
the mutated store. -/
def saveStep (mp : List (String × Field)) (a : List Val × Store)
    (f : String) : List Val × Store :=
  let g := getValueOrDefault mp a.2 f
  (a.1 ++ [g.1], g.2)

def saveArgsRun (m : Meta) (store : Store) : List Val × Store :=
  let r := m.fields.foldl (saveStep m.mappings) ([], store)
  let g := getValueOrDefault m.mappings r.2 m.primary_key
  (r.1 ++ [g.1], g.2)

/-- `save()`: build the arguments, run `__insert__` through `execute`
(with the default `autocommit=True`); an affected-row count other than 1
is only logged — the returned flag records whether the warning fired. -/
def saveRun (env : DBEnv) (m : Meta) (store : Store) : Except Nat Bool :=
  let args := (saveArgsRun m store).1
  match (executeModel env m.insertT args true).2 with
  | .ok rows => .ok (rows != 1)
  | .error e => .error e

/-- `update()`: current values only (`getValue`, no default fallback). -/
def updateRun (env : DBEnv) (m : Meta) (store : Store) : Except Nat Bool :=
  let args := m.fields.map (getValue store) ++ [getValue store m.primary_key]
  match (executeModel env m.updateT args true).2 with
  | .ok rows => .ok (rows != 1)
  | .error e => .error e

/-- `remove()`: the primary key value only. -/
def removeRun (env : DBEnv) (m : Meta) (store : Store) : Except Nat Bool :=
  let args := [getValue store m.primary_key]
  match (executeModel env m.deleteT args true).2 with
  | .ok rows => .ok (rows != 1)
  | .error e => .error e

/-- The shapes a `limit` keyword argument can take: an `int`, a tuple
(of any length), or anything else. -/
inductive PyLimit where
  | int (n : Int) : PyLimit
  | tup (xs : List Int) : PyLimit
  | other : PyLimit

/-- The query-building part of `findAll(where, args, orderBy, limit)`:
starts from `__select__`, appends `where <w>` when `where` is truthy,
defaults `args` to a fresh empty list, appends `order by <o>` when
truthy, then handles `limit`: an `int` appends `limit ?` and appends the
count to `args`; a 2-tuple appends `limit ?, ?` and extends `args` with
both values; any other shape raises `ValueError`. Returns the joined SQL
and the argument list as it stands when `select` is called (the caller's
own list object, mutated in place by `append`/`extend`). -/
def findAllQuery (m : Meta) (whereC : Option String)
    (args : Option (List Val)) (orderBy : Option String)
    (limit : Option PyLimit) : Except String (String × List Val) :=
  let sql := [m.selectT]
  let sql := match whereC with
    | some w => if w.isEmpty then sql else sql ++ ["where", w]
    | none => sql
  let args := args.getD []
  let sql := match orderBy with
    | some o => if o.isEmpty then sql else sql ++ ["order by", o]
    | none => sql
  match limit with
  | none => .ok (joinSep " " sql, args)
  | some (.int n) => .ok (joinSep " " (sql ++ ["limit", "?"]), args ++ [.vInt n])
  | some (.tup xs) =>
    if xs.length = 2 then
      .ok (joinSep " " (sql ++ ["limit", "?, ?"]), args ++ xs.map Val.vInt)
    else .error "Invalid limit value"
  | some .other => .error "Invalid limit value"

/-- `findAll` end to end: build the query, run it through `select` (no
`size`, so all rows are fetched), materialize each row into an instance. -/
def findAllRun (db : String → List Val → List Row) (m : Meta)
    (whereC : Option String) (args : Option (List Val))
    (orderBy : Option String) (limit : Option PyLimit) :
    Except String (List Row) :=
  match findAllQuery m whereC args orderBy limit with
  | .error e => .error e
  | .ok (sql, a) => .ok (selectModel db sql (some a) none).2

/-- `find(pk)`: run `__select__` plus the primary-key filter with `[pk]`
and fetch size 1; `None` when no row came back, else the first row
materialized into an instance. -/
def find (db : String → List Val → List Row) (m : Meta) (pk : Val) :
    Option Row :=
  let rs := (selectModel db (m.selectT ++ " where `" ++ m.primary_key ++ "`=?")
    (some [pk]) (some 1)).2
  match rs with
  | [] => none
  | r :: _ => some r

/-- `findNumber(selectField, where, args)`: `select <sf> _num_ from
<table>` plus an optional where clause, fetch size 1; `None` when no row
came back, else the row's `_num_` entry (a missing `_num_` column is a
`KeyError`). -/
def findNumber (db : String → List Val → List Row) (m : Meta)
    (selectField : String) (whereC : Option String)
    (args : Option (List Val)) : Except String (Option Val) :=
  let sql := ["select " ++ selectField ++ " _num_ from `" ++ m.tableName ++ "`"]
  let sql := match whereC with
    | some w => if w.isEmpty then sql else sql ++ ["where", w]
    | none => sql
  let rs := (selectModel db (joinSep " " sql) args (some 1)).2
  match rs with
  | [] => .ok none
  | r :: _ =>
    match r.lookup "_num_" with
    | some v => .ok (some v)
    | none => .error "KeyError"

/-- The spec-side notion used by the `save` claim: a field's effective
value is its set value when one is present, else the descriptor's
default (invoking a callable), else `None`. Stated directly over the
original store, without threading any side effect. -/
def effectiveValue (mappings : List (String × Field)) (store : Store)
    (key : String) : Val :=
  if getValue store key = .vNone then
    match mappings.lookup key with
    | some field =>
      match field.default with
      | some d => evalDefault d
      | none => .vNone
    | none => .vNone
  else getValue store key

def countQ (s : String) : Nat := s.data.count '?'

def regularKeys (attrs : List (String × AttrVal)) : List String :=
  attrs.filterMap fun kv =>
    match kv.2 with
    | .fld f => if f.primary_key then none else some kv.1
    | _ => none

def primaryKeyAttrs (attrs : List (String × AttrVal)) : List String :=
  attrs.filterMap fun kv =>
    match kv.2 with
    | .fld f => if f.primary_key then some kv.1 else none
    | _ => none

def userAttrs : List (String × AttrVal) :=
  [("__table__", .tbl "users"),
   ("id", .fld (IntegerField none true none)),
   ("email", .fld (StringField (some "user_email") false none "varchar(50)")),
   ("name", .fld (StringField none false none "varchar(100)"))]

def userMeta : Meta :=
  match modelMetaclassNew "User" userAttrs with
  | .ok (some m) => m
  | _ => buildMeta "x" ([], [], "x")

def dupAttrs : List (String × AttrVal) :=
  [("id", .fld (IntegerField none true none)),
   ("uid", .fld (StringField none true none "varchar(50)")),
   ("name", .fld (StringField none false none "varchar(100)"))]

def noPkAttrs : List (String × AttrVal) :=
  [("name", .fld (StringField none false none "varchar(100)")),
   ("summary", .fld (TextField none none))]

def envRollbackFails : DBEnv :=
  ⟨.ok (), fun _ _ => .error 10, .ok (), .error 20⟩

def envAllOk : DBEnv :=
  ⟨.ok (), fun _ _ => .ok 1, .ok (), .ok ()⟩

def dbTwoRows : String → List Val → List Row :=
  fun _ _ => [[("id", .vInt 1)], [("id", .vInt 2)]]

def strContains (s pat : String) : Bool :=
  (List.range (s.data.length + 1)).any fun i => pat.data.isPrefixOf (s.data.drop i)

def dbEmpty : String → List Val → List Row := fun _ _ => []

def envRows3 : DBEnv :=
  ⟨.ok (), fun _ _ => .ok 3, .ok (), .ok ()⟩

theorem countQ_append (a b : String) : countQ (a ++ b) = countQ a + countQ b := by
  simp [countQ, String.data_append, List.count_append]

theorem countQ_joinSep (sep : String) (h : countQ sep = 0) :
    ∀ l : List String, countQ (joinSep sep l) = (l.map countQ).sum
  | [] => by simp [joinSep, countQ]
  | [a] => by simp [joinSep]
  | a :: b :: rest => by
    simp [joinSep, countQ_append, h, countQ_joinSep sep h (b :: rest)]

theorem countQ_qmark : countQ "?" = 1 := by decide

theorem countQ_create_args (n : Nat) : countQ (create_args_string n) = n := by
  rw [create_args_string, countQ_joinSep _ (by decide)]
  simp [List.map_replicate, List.sum_replicate, countQ_qmark]

theorem countQ_escape (f : String) : countQ (escape f) = countQ f := by
  have h1 : countQ "`" = 0 := by decide
  simp [escape, countQ_append, h1]

theorem countQ_mkInsert (t pk : String) (fs : List String)
    (ht : countQ t = 0) (hpk : countQ pk = 0)
    (hf : ∀ f ∈ fs, countQ f = 0) :
    countQ (mkInsert t pk fs) = fs.length + 1 := by
  have hj : countQ (joinSep ", " (fs.map escape)) = 0 := by
    rw [countQ_joinSep _ (by decide)]
    simp only [List.map_map]
    refine List.sum_eq_zero ?_
    intro x hx
    obtain ⟨f, hf1, rfl⟩ := List.mem_map.mp hx
    simp [Function.comp, countQ_escape, hf f hf1]
  have l1 : countQ "insert into `" = 0 := by decide
  have l2 : countQ "` (" = 0 := by decide
  have l3 : countQ ", `" = 0 := by decide
  have l4 : countQ "`) values (" = 0 := by decide
  have l5 : countQ ")" = 0 := by decide
  simp [mkInsert, countQ_append, ht, hpk, hj, countQ_create_args, l1, l2, l3, l4, l5]

theorem countQ_mkUpdate (t pk : String) (cols : List String)
    (ht : countQ t = 0) (hpk : countQ pk = 0)
    (hc : ∀ c ∈ cols, countQ c = 0) :
    countQ (mkUpdate t pk cols) = cols.length + 1 := by
  have hj : countQ (joinSep ", " (cols.map fun c => "`" ++ c ++ "`=?")) =
      cols.length := by
    rw [countQ_joinSep _ (by decide)]
    simp only [List.map_map]
    rw [List.sum_eq_card_nsmul _ 1, List.length_map, smul_eq_mul, mul_one]
    intro x hx
    obtain ⟨c, hc1, rfl⟩ := List.mem_map.mp hx
    have e1 : countQ "`" = 0 := by decide
    have e2 : countQ "`=?" = 1 := by decide
    simp [Function.comp, countQ_append, e1, e2, hc c hc1]
  have l1 : countQ "update `" = 0 := by decide
  have l2 : countQ "` set " = 0 := by decide
  have l3 : countQ " where `" = 0 := by decide
  have l4 : countQ "`=?" = 1 := by decide
  simp [mkUpdate, countQ_append, ht, hpk, hj, l1, l2, l3, l4]

theorem countQ_mkDelete (t pk : String)
    (ht : countQ t = 0) (hpk : countQ pk = 0) :
    countQ (mkDelete t pk) = 1 := by
  have l1 : countQ "delete from `" = 0 := by decide
  have l2 : countQ "` where `" = 0 := by decide
  have l3 : countQ "`=?" = 1 := by decide
  simp [mkDelete, countQ_append, ht, hpk, l1, l2, l3]

theorem modelMeta_ok (name : String) (attrs : List (String × AttrVal))
    (m : Meta) (h : modelMetaclassNew name attrs = .ok (some m)) :
    m.selectT = mkSelect m.tableName m.primary_key m.fields ∧
    m.insertT = mkInsert m.tableName m.primary_key m.fields ∧
    m.updateT = mkUpdate m.tableName m.primary_key
      (m.fields.map (updCol m.mappings)) ∧
    m.deleteT = mkDelete m.tableName m.primary_key := by
  unfold modelMetaclassNew at h
  by_cases hn : name = "Model"
  · simp [hn] at h
  · rw [if_neg hn] at h
    cases hs : scanAttrs attrs none [] [] with
    | error e => rw [hs] at h; simp at h
    | ok scan =>
      rw [hs] at h
      simp only [Except.ok.injEq, Option.some.injEq] at h
      subst h
      exact ⟨rfl, rfl, rfl, rfl⟩

theorem scanAttrs_ok_fields (attrs : List (String × AttrVal)) :
    ∀ pk fs mp mp' fs' pk', scanAttrs attrs pk fs mp = .ok (mp', fs', pk') →
      fs' = fs ++ regularKeys attrs := by
  induction attrs with
  | nil =>
    intro pk fs mp mp' fs' pk' h
    unfold scanAttrs at h
    split at h
    · simp only [Except.ok.injEq, Prod.mk.injEq] at h
      simp [regularKeys, h.2.1]
    · simp at h
  | cons kv rest ih =>
    intro pk fs mp mp' fs' pk' h
    obtain ⟨k, v⟩ := kv
    cases v with
    | fld f =>
      unfold scanAttrs at h
      cases hp : f.primary_key with
      | true =>
        cases ht : truthyOptStr pk with
        | true => simp [hp, ht] at h
        | false =>
          simp only [hp, ht, if_true, if_false, Bool.false_eq_true] at h
          have := ih _ _ _ _ _ _ h
          simp [regularKeys, List.filterMap_cons, hp, this]
      | false =>
        simp only [hp, Bool.false_eq_true, if_false] at h
        have := ih _ _ _ _ _ _ h
        simp [regularKeys, List.filterMap_cons, hp, this]
    | tbl s =>
      unfold scanAttrs at h
      have := ih _ _ _ _ _ _ h
      simp [regularKeys, List.filterMap_cons, this]
    | other =>
      unfold scanAttrs at h
      have := ih _ _ _ _ _ _ h
      simp [regularKeys, List.filterMap_cons, this]

theorem modelMeta_ok_fields (name : String) (attrs : List (String × AttrVal))
    (m : Meta) (h : modelMetaclassNew name attrs = .ok (some m)) :
    m.fields = regularKeys attrs := by
  unfold modelMetaclassNew at h
  by_cases hn : name = "Model"
  · simp [hn] at h
  · rw [if_neg hn] at h
    cases hs : scanAttrs attrs none [] [] with
    | error e => rw [hs] at h; simp at h
    | ok scan =>
      rw [hs] at h
      simp only [Except.ok.injEq, Option.some.injEq] at h
      subst h
      obtain ⟨mp, fs, pk⟩ := scan
      simpa using scanAttrs_ok_fields attrs none [] [] mp fs pk hs

/-- C2: for every record type successfully declared (the attribute scan succeeds, so there is exactly one primary-key field) whose table name, key name and column names contain no placeholder character, the insert template has exactly N+1 positional placeholders, the update template exactly N+1, and the delete template exactly 1, where N is the number of regular (non-primary-key) fields of the declaration. -/
theorem template_placeholder_counts (name : String)
    (attrs : List (String × AttrVal)) (m : Meta)
    (h : modelMetaclassNew name attrs = .ok (some m))
    (ht : countQ m.tableName = 0) (hpk : countQ m.primary_key = 0)
    (hu : ∀ f ∈ m.fields, countQ (updCol m.mappings f) = 0)
    (hf : ∀ f ∈ m.fields, countQ f = 0) :
    m.fields = regularKeys attrs ∧
    countQ m.insertT = m.fields.length + 1 ∧
    countQ m.updateT = m.fields.length + 1 ∧
    countQ m.deleteT = 1 := by
  obtain ⟨hsel, hins, hupd, hdel⟩ := modelMeta_ok name attrs m h
  refine ⟨modelMeta_ok_fields name attrs m h, ?_, ?_, ?_⟩
  · rw [hins, countQ_mkInsert _ _ _ ht hpk hf]
  · rw [hupd, countQ_mkUpdate _ _ _ ht hpk ?_]
    · simp
    · intro c hc
      obtain ⟨f, hf1, rfl⟩ := List.mem_map.mp hc
      exact hu f hf1
  · rw [hdel, countQ_mkDelete _ _ ht hpk]

/-- Witness: the placeholder counts evaluated on the concrete `User` declaration (N = 2). -/
theorem template_placeholder_counts_witness :
    countQ userMeta.insertT = userMeta.fields.length + 1 ∧
    countQ userMeta.updateT = userMeta.fields.length + 1 ∧
    countQ userMeta.deleteT = 1 :=
  let r := template_placeholder_counts "User" userAttrs userMeta rfl
    (by decide) (by decide) (by decide) (by decide)
  ⟨r.2.1, r.2.2.1, r.2.2.2⟩

theorem scanAttrs_dup_of_truthy (attrs : List (String × AttrVal)) :
    ∀ pk fs mp, truthyOptStr pk = true →
      ∀ k1 rest, primaryKeyAttrs attrs = k1 :: rest →
        scanAttrs attrs pk fs mp = .error (.duplicatePrimaryKey k1) := by
  induction attrs with
  | nil => intro pk fs mp hpk k1 rest h; simp [primaryKeyAttrs] at h
  | cons kv tail ih =>
    intro pk fs mp hpk k1 rest h
    obtain ⟨k, v⟩ := kv
    cases v with
    | fld f =>
      cases hp : f.primary_key with
      | true =>
        simp only [primaryKeyAttrs, List.filterMap_cons, hp, if_true,
          List.cons.injEq] at h
        unfold scanAttrs
        simp [hp, hpk, h.1]
      | false =>
        simp only [primaryKeyAttrs, List.filterMap_cons, hp,
          Bool.false_eq_true, if_false] at h
        unfold scanAttrs
        simp only [hp, Bool.false_eq_true, if_false]
        exact ih pk (fs ++ [k]) (mp ++ [(k, f)]) hpk k1 rest
          (by simpa [primaryKeyAttrs] using h)
    | tbl s =>
      simp only [primaryKeyAttrs, List.filterMap_cons] at h
      unfold scanAttrs
      exact ih pk fs mp hpk k1 rest (by simpa [primaryKeyAttrs] using h)
    | other =>
      simp only [primaryKeyAttrs, List.filterMap_cons] at h
      unfold scanAttrs
      exact ih pk fs mp hpk k1 rest (by simpa [primaryKeyAttrs] using h)

theorem scanAttrs_dup (attrs : List (String × AttrVal)) :
    ∀ pk fs mp, truthyOptStr pk = false →
      ∀ k1 k2 rest, primaryKeyAttrs attrs = k1 :: k2 :: rest → k1 ≠ "" →
        scanAttrs attrs pk fs mp = .error (.duplicatePrimaryKey k2) := by
  induction attrs with
  | nil => intro pk fs mp hpk k1 k2 rest h _; simp [primaryKeyAttrs] at h
  | cons kv tail ih =>
    intro pk fs mp hpk k1 k2 rest h hk1
    obtain ⟨k, v⟩ := kv
    cases v with
    | fld f =>
      cases hp : f.primary_key with
      | true =>
        simp only [primaryKeyAttrs, List.filterMap_cons, hp, if_true,
          List.cons.injEq] at h
        unfold scanAttrs
        simp only [hp, if_true, hpk, Bool.false_eq_true, if_false]
        have htr : truthyOptStr (some k) = true := by
          simp only [truthyOptStr, h.1, Bool.not_eq_true']
          rw [Bool.eq_false_iff]
          simp [String.isEmpty_iff, hk1]
        exact scanAttrs_dup_of_truthy tail (some k) fs (mp ++ [(k, f)]) htr
          k2 rest (by simpa [primaryKeyAttrs] using h.2)
      | false =>
        simp only [primaryKeyAttrs, List.filterMap_cons, hp,
          Bool.false_eq_true, if_false] at h
        unfold scanAttrs
        simp only [hp, Bool.false_eq_true, if_false]
        exact ih pk (fs ++ [k]) (mp ++ [(k, f)]) hpk k1 k2 rest
          (by simpa [primaryKeyAttrs] using h) hk1
    | tbl s =>
      simp only [primaryKeyAttrs, List.filterMap_cons] at h
      unfold scanAttrs
      exact ih pk fs mp hpk k1 k2 rest (by simpa [primaryKeyAttrs] using h) hk1
    | other =>
      simp only [primaryKeyAttrs, List.filterMap_cons] at h
      unfold scanAttrs
      exact ih pk fs mp hpk k1 k2 rest (by simpa [primaryKeyAttrs] using h) hk1

theorem scanAttrs_missing (attrs : List (String × AttrVal)) :
    ∀ pk fs mp, truthyOptStr pk = false → primaryKeyAttrs attrs = [] →
      scanAttrs attrs pk fs mp = .error .missingPrimaryKey := by
  induction attrs with
  | nil => intro pk fs mp hpk _; unfold scanAttrs; simp [hpk]
  | cons kv tail ih =>
    intro pk fs mp hpk h
    obtain ⟨k, v⟩ := kv
    cases v with
    | fld f =>
      cases hp : f.primary_key with
      | true => simp only [primaryKeyAttrs, List.filterMap_cons, hp,
          if_true] at h; exact absurd h (by simp)
      | false =>
        simp only [primaryKeyAttrs, List.filterMap_cons, hp,
          Bool.false_eq_true, if_false] at h
        unfold scanAttrs
        simp only [hp, Bool.false_eq_true, if_false]
        exact ih pk (fs ++ [k]) (mp ++ [(k, f)]) hpk
          (by simpa [primaryKeyAttrs] using h)
    | tbl s =>
      simp only [primaryKeyAttrs, List.filterMap_cons] at h
      unfold scanAttrs
      exact ih pk fs mp hpk (by simpa [primaryKeyAttrs] using h)
    | other =>
      simp only [primaryKeyAttrs, List.filterMap_cons] at h
      unfold scanAttrs
      exact ih pk fs mp hpk (by simpa [primaryKeyAttrs] using h)

/-- C3: declaring a record type whose attributes include two fields marked as primary key raises the duplicate-primary-key error at definition time, citing the second offending attribute name, and declaring one with zero primary-key fields raises the missing-primary-key error; in both cases the declaration returns an error, so no metadata or templates are produced. -/
theorem definition_time_pk_errors (name : String)
    (attrs : List (String × AttrVal)) (hn : name ≠ "Model")
    (hk : ∀ k ∈ primaryKeyAttrs attrs, k ≠ "") :
    (∀ k1 k2 rest, primaryKeyAttrs attrs = k1 :: k2 :: rest →
      modelMetaclassNew name attrs = .error (.duplicatePrimaryKey k2)) ∧
    (primaryKeyAttrs attrs = [] →
      modelMetaclassNew name attrs = .error .missingPrimaryKey) := by
  constructor
  · intro k1 k2 rest h
    unfold modelMetaclassNew
    rw [if_neg hn,
      scanAttrs_dup attrs none [] [] rfl k1 k2 rest h (hk k1 (by rw [h]; simp))]
  · intro h
    unfold modelMetaclassNew
    rw [if_neg hn, scanAttrs_missing attrs none [] [] rfl h]

/-- Witness: a two-primary-key declaration and a zero-primary-key declaration, both failing as stated. -/
theorem definition_time_pk_errors_witness :
    modelMetaclassNew "User" dupAttrs = .error (.duplicatePrimaryKey "uid") ∧
    modelMetaclassNew "Blog" noPkAttrs = .error .missingPrimaryKey :=
  ⟨(definition_time_pk_errors "User" dupAttrs (by decide) (by decide)).1
      "id" "uid" [] rfl,
   (definition_time_pk_errors "Blog" noPkAttrs (by decide) (by decide)).2 rfl⟩

/-- C6: `findAll` with an integer limit appends `limit ?` with the count as one extra bound argument; with a 2-tuple limit it appends `limit ?, ?` binding both values in order; a limit of any other shape raises `ValueError`; the where and order-by clauses, when given and non-empty, are appended before the limit clause. -/
theorem findAll_limit_clause (m : Meta) (w o : Option String)
    (args0 : List Val)
    (hw : ∀ s, w = some s → s.isEmpty = false)
    (ho : ∀ s, o = some s → s.isEmpty = false) :
    ∀ pre, pre = m.selectT ++
        (match w with | some s => " where " ++ s | none => "") ++
        (match o with | some s => " order by " ++ s | none => "") →
      (∀ n : Int, findAllQuery m w (some args0) o (some (.int n)) =
        .ok (pre ++ " limit ?", args0 ++ [.vInt n])) ∧
      (∀ a b : Int, findAllQuery m w (some args0) o (some (.tup [a, b])) =
        .ok (pre ++ " limit ?, ?", args0 ++ [.vInt a, .vInt b])) ∧
      (∀ xs : List Int, xs.length ≠ 2 →
        findAllQuery m w (some args0) o (some (.tup xs)) =
          .error "Invalid limit value") ∧
      (findAllQuery m w (some args0) o (some .other) =
        .error "Invalid limit value") := by
  intro pre hpre
  subst hpre
  refine ⟨fun n => ?_, fun a b => ?_, fun xs hxs => ?_, ?_⟩ <;>
    rcases w with _ | s <;> rcases o with _ | t <;>
    first
      | (simp [findAllQuery, hw s rfl, ho t rfl] <;>
          (apply String.ext; simp [joinSep, String.data_append]))
      | (simp [findAllQuery, hw s rfl] <;>
          (apply String.ext; simp [joinSep, String.data_append]))
      | (simp [findAllQuery, ho t rfl] <;>
          (apply String.ext; simp [joinSep, String.data_append]))
      | (simp [findAllQuery] <;>
          (apply String.ext; simp [joinSep, String.data_append]))
      | simp [findAllQuery, hw s rfl, ho t rfl, hxs]
      | simp [findAllQuery, hw s rfl, hxs]
      | simp [findAllQuery, ho t rfl, hxs]
      | simp [findAllQuery, hxs]

/-- C1 counterexample: with `autocommit=false`, when the statement fails with error 10 and the rollback itself then fails with error 20, `execute` surfaces the rollback failure 20 and not the original error 10 — the rollback failure is not suppressed in favor of the original error, contrary to the claim. -/
theorem execute_rollback_counterexample :
    (executeModel envRollbackFails "delete from `users`" [] false).2 =
      .error 20 ∧
    (executeModel envRollbackFails "delete from `users`" [] false).2 ≠
      .error 10 ∧
    envRollbackFails.execR "delete from `users`" [] = .error 10 := by
  refine ⟨rfl, ?_, rfl⟩
  show (Except.error 20 : Except Nat Nat) ≠ .error 10
  simp

/-- C1 (amended): with `autocommit=false`, a transaction is explicitly begun before the statement runs and committed after it; if the statement or the commit raises, a rollback is attempted and, when the rollback succeeds, the original failure is re-raised; if the rollback itself fails, the rollback failure propagates in place of the original error. -/
theorem execute_transaction_semantics (env : DBEnv) (sql : String)
    (args : List Val) (hb : env.beginR = .ok ()) :
    (∀ n, env.execR sql args = .ok n → env.commitR = .ok () →
      executeModel env sql args false = ([.begin, .exec, .commit], .ok n)) ∧
    (∀ e, env.execR sql args = .error e → env.rollbackR = .ok () →
      executeModel env sql args false =
        ([.begin, .exec, .rollback], .error e)) ∧
    (∀ n c, env.execR sql args = .ok n → env.commitR = .error c →
      env.rollbackR = .ok () →
      executeModel env sql args false =
        ([.begin, .exec, .commit, .rollback], .error c)) ∧
    (∀ e r, env.execR sql args = .error e → env.rollbackR = .error r →
      executeModel env sql args false =
        ([.begin, .exec, .rollback], .error r)) := by
  refine ⟨fun n h1 h2 => ?_, fun e h1 h2 => ?_,
    fun n c h1 h2 h3 => ?_, fun e r h1 h2 => ?_⟩ <;>
    simp [executeModel, hb, h1, h2, *]

/-- Witness: the success path of the amended transaction semantics at a concrete environment. -/
theorem execute_transaction_semantics_witness :
    executeModel envAllOk "insert into `users` (`id`) values (?)"
        [Val.vInt 7] false = ([.begin, .exec, .commit], .ok 1) :=
  (execute_transaction_semantics envAllOk
    "insert into `users` (`id`) values (?)" [Val.vInt 7] rfl).1 1 rfl rfl

/-- C4 counterexample: `select` with `size = 0` takes Python's falsy branch and fetches all rows — a 2-row result set is returned whole, not as exactly 0 rows. -/
theorem select_limit_zero_counterexample :
    (selectModel dbTwoRows "select `id` from `users`" none (some 0)).2 =
      [[("id", .vInt 1)], [("id", .vInt 2)]] ∧
    ((selectModel dbTwoRows "select `id` from `users`" none (some 0)).2).length
      ≠ 0 := by
  refine ⟨rfl, ?_⟩
  decide

/-- C4 (amended): `select` never begins a transaction; with a nonzero limit it fetches the first `limit` rows of the result set, and with limit 0 or no limit it fetches all rows. -/
theorem select_fetch_semantics (db : String → List Val → List Row)
    (sql : String) (args : Option (List Val)) :
    (∀ size, Act.begin ∉ (selectModel db sql args size).1) ∧
    (∀ n, n ≠ 0 →
      (selectModel db sql args (some n)).2 = (db sql (args.getD [])).take n) ∧
    (selectModel db sql args (some 0)).2 = db sql (args.getD []) ∧
    (selectModel db sql args none).2 = db sql (args.getD []) := by
  refine ⟨fun size => ?_, fun n hn => ?_, ?_, ?_⟩ <;>
    simp [selectModel, *]

/-- Witness: fetching with limit 1 from a concrete 2-row result set. -/
theorem select_fetch_semantics_witness :
    (selectModel dbTwoRows "select `id` from `users`" none (some 1)).2 =
      (dbTwoRows "select `id` from `users`" []).take 1 :=
  (select_fetch_semantics dbTwoRows "select `id` from `users`" none).2.1 1
    (by decide)

/-- C5 counterexample: for a field declared under attribute `email` whose descriptor carries the explicit column name `user_email`, the update template refers to the column as `user_email` while the select and insert templates refer to it as `email` — the three templates do not refer to the field by the same column name. -/
theorem template_column_name_counterexample :
    userMeta.updateT =
      "update `users` set `user_email`=?, `name`=? where `id`=?" ∧
    userMeta.insertT =
      "insert into `users` (`email`, `name`, `id`) values (?, ?, ?)" ∧
    userMeta.selectT = "select `id`, `email`, `name` from `users`" ∧
    strContains userMeta.updateT "`user_email`" = true ∧
    strContains userMeta.updateT "`email`" = false ∧
    strContains userMeta.insertT "`email`" = true ∧
    strContains userMeta.insertT "`user_email`" = false ∧
    strContains userMeta.selectT "`email`" = true ∧
    strContains userMeta.selectT "`user_email`" = false := by
  refine ⟨rfl, rfl, rfl, ?_, ?_, ?_, ?_, ?_, ?_⟩ <;> decide

/-- C5 (amended): template generation is deterministic; the select and insert templates always name a column by the declaring attribute's identifier, ignoring the descriptor's explicit name, while the update template uses the explicit name when it is non-empty and falls back to the identifier otherwise; when every column resolves to its identifier the update template coincides with the identifier-based one. -/
theorem template_column_names (name : String)
    (attrs : List (String × AttrVal)) (m : Meta)
    (h : modelMetaclassNew name attrs = .ok (some m)) :
    m.selectT = mkSelect m.tableName m.primary_key m.fields ∧
    m.insertT = mkInsert m.tableName m.primary_key m.fields ∧
    m.updateT = mkUpdate m.tableName m.primary_key
      (m.fields.map (updCol m.mappings)) ∧
    (∀ f fl, m.mappings.lookup f = some fl →
      (fl.name = none ∨ fl.name = some "") → updCol m.mappings f = f) ∧
    (∀ f fl s, m.mappings.lookup f = some fl → fl.name = some s → s ≠ "" →
      updCol m.mappings f = s) ∧
    ((∀ f ∈ m.fields, updCol m.mappings f = f) →
      m.updateT = mkUpdate m.tableName m.primary_key m.fields) := by
  obtain ⟨hsel, hins, hupd, hdel⟩ := modelMeta_ok name attrs m h
  refine ⟨hsel, hins, hupd, ?_, ?_, ?_⟩
  · intro f fl hf hn
    cases hn with
    | inl hn => simp [updCol, hf, pyOr, hn]
    | inr hn =>
      have he : ("" : String).isEmpty = true := rfl
      simp [updCol, hf, pyOr, hn, he]
  · intro f fl s hf hn hs
    simp [updCol, hf, pyOr, hn, String.isEmpty_iff, hs]
  · intro hall
    rw [hupd, List.map_congr_left fun f hf => hall f hf]
    simp

/-- Witness: column-name resolution on the concrete `User` declaration. -/
theorem template_column_names_witness :
    userMeta.insertT =
      mkInsert userMeta.tableName userMeta.primary_key userMeta.fields ∧
    updCol userMeta.mappings "name" = "name" ∧
    updCol userMeta.mappings "email" = "user_email" :=
  let r := template_column_names "User" userAttrs userMeta rfl
  ⟨r.2.1,
   r.2.2.2.1 "name" (StringField none false none "varchar(100)") rfl
     (Or.inl rfl),
   r.2.2.2.2.1 "email" (StringField (some "user_email") false none
     "varchar(50)") "user_email" rfl rfl (by decide)⟩

theorem effectiveValue_congr (mp : List (String × Field)) (s1 s2 : Store)
    (k : String) (h : getValue s2 k = getValue s1 k) :
    effectiveValue mp s2 k = effectiveValue mp s1 k := by
  unfold effectiveValue
  rw [h]

theorem getValueOrDefault_spec (mp : List (String × Field)) (store : Store)
    (key : String) :
    (getValueOrDefault mp store key).1 = effectiveValue mp store key ∧
    getValue (getValueOrDefault mp store key).2 key =
      effectiveValue mp store key ∧
    (∀ j, j ≠ key →
      getValue (getValueOrDefault mp store key).2 j = getValue store j) := by
  by_cases hv : getValue store key = .vNone
  · cases hm : mp.lookup key with
    | none => simp [getValueOrDefault, effectiveValue, hv, hm]
    | some field =>
      cases hd : field.default with
      | none => simp [getValueOrDefault, effectiveValue, hv, hm, hd]
      | some d =>
        simp only [getValueOrDefault, effectiveValue, hv, hm, hd, if_pos]
        refine ⟨trivial, ?_, fun j hj => ?_⟩
        · simp [getValue, List.lookup]
        · have hb : (j == key) = false := beq_eq_false_iff_ne.mpr hj
          simp [getValue, List.lookup, hb]
  · simp [getValueOrDefault, effectiveValue, hv]

theorem saveFold (mp : List (String × Field)) :
    ∀ (keys : List String) (store0 st : Store) (acc : List Val),
      keys.Nodup → (∀ k ∈ keys, getValue st k = getValue store0 k) →
      (keys.foldl (saveStep mp) (acc, st)).1 =
        acc ++ keys.map (effectiveValue mp store0) ∧
      (∀ j, j ∉ keys →
        getValue (keys.foldl (saveStep mp) (acc, st)).2 j = getValue st j) ∧
      (∀ k ∈ keys, getValue (keys.foldl (saveStep mp) (acc, st)).2 k =
        effectiveValue mp store0 k) := by
  intro keys
  induction keys with
  | nil => intro store0 st acc _ _; simp
  | cons k rest ih =>
    intro store0 st acc hnd hagree
    have hk : k ∉ rest := (List.nodup_cons.mp hnd).1
    have hrest : rest.Nodup := (List.nodup_cons.mp hnd).2
    obtain ⟨hval, hatk, helse⟩ := getValueOrDefault_spec mp st k
    have hagree' : ∀ k' ∈ rest,
        getValue (getValueOrDefault mp st k).2 k' = getValue store0 k' := by
      intro k' hk'
      rw [helse k' (fun he => hk (he ▸ hk')), hagree k' (List.mem_cons_of_mem _ hk')]
    have heq : effectiveValue mp st k = effectiveValue mp store0 k :=
      effectiveValue_congr mp store0 st k (hagree k (List.mem_cons_self _ _))
    obtain ⟨ih1, ih2, ih3⟩ :=
      ih store0 (getValueOrDefault mp st k).2 (acc ++ [(getValueOrDefault mp st k).1])
        hrest hagree'
    refine ⟨?_, ?_, ?_⟩
    · rw [List.foldl_cons]
      show (rest.foldl (saveStep mp)
        (acc ++ [(getValueOrDefault mp st k).1], (getValueOrDefault mp st k).2)).1 = _
      rw [ih1, hval, heq]
      simp
    · intro j hj
      rw [List.foldl_cons]
      have hjk : j ≠ k := fun he => hj (he ▸ List.mem_cons_self _ _)
      have hjr : j ∉ rest := fun he => hj (List.mem_cons_of_mem _ he)
      show getValue (rest.foldl (saveStep mp)
        (acc ++ [(getValueOrDefault mp st k).1], (getValueOrDefault mp st k).2)).2 j = _
      rw [ih2 j hjr, helse j hjk]
    · intro k' hk'
      rw [List.foldl_cons]
      show getValue (rest.foldl (saveStep mp)
        (acc ++ [(getValueOrDefault mp st k).1], (getValueOrDefault mp st k).2)).2 k' = _
      rcases List.mem_cons.mp hk' with he | hm
      · subst he
        rw [ih2 k' hk, hatk, heq]
      · exact ih3 k' hm

/-- C7: the argument list `save` builds for the insert statement is the effective value of each regular field in declaration order followed by the primary key's effective value, where a field's effective value is its set value when present and otherwise the descriptor's default (invoking a zero-argument callable); the resolved defaults are written back to the previously-unset attributes of the instance, and attributes outside the declared fields are untouched. -/
theorem save_args_semantics (m : Meta) (store : Store)
    (hnd : (m.fields ++ [m.primary_key]).Nodup) :
    (saveArgsRun m store).1 =
      (m.fields ++ [m.primary_key]).map (effectiveValue m.mappings store) ∧
    (∀ k ∈ m.fields ++ [m.primary_key],
      getValue (saveArgsRun m store).2 k =
        effectiveValue m.mappings store k) ∧
    (∀ j, j ∉ m.fields ++ [m.primary_key] →
      getValue (saveArgsRun m store).2 j = getValue store j) := by
  have hsplit := List.nodup_append.mp hnd
  have hF : m.fields.Nodup := hsplit.1
  have hpk : m.primary_key ∉ m.fields :=
    fun hm => hsplit.2.2 hm (List.mem_singleton_self _)
  obtain ⟨f1, f2, f3⟩ :=
    saveFold m.mappings m.fields store store [] hF (fun k _ => rfl)
  set r := m.fields.foldl (saveStep m.mappings) ([], store) with hr
  obtain ⟨g1, g2, g3⟩ := getValueOrDefault_spec m.mappings r.2 m.primary_key
  have hagree : getValue r.2 m.primary_key = getValue store m.primary_key :=
    f2 _ hpk
  have heff : effectiveValue m.mappings r.2 m.primary_key =
      effectiveValue m.mappings store m.primary_key :=
    effectiveValue_congr _ _ _ _ hagree
  refine ⟨?_, ?_, ?_⟩
  · show (r.1 ++ [(getValueOrDefault m.mappings r.2 m.primary_key).1]) = _
    rw [g1, heff, f1]
    simp
  · intro k hk
    rcases List.mem_append.mp hk with hf | hp
    · have hkp : k ≠ m.primary_key := fun he => hpk (he ▸ hf)
      show getValue (getValueOrDefault m.mappings r.2 m.primary_key).2 k = _
      rw [g3 k hkp, f3 k hf]
    · have he : k = m.primary_key := List.mem_singleton.mp hp
      subst he
      show getValue
        (getValueOrDefault m.mappings r.2 m.primary_key).2 m.primary_key = _
      rw [g2, heff]
  · intro j hj
    have hjf : j ∉ m.fields := fun h => hj (List.mem_append.mpr (Or.inl h))
    have hjp : j ≠ m.primary_key :=
      fun he => hj (List.mem_append.mpr (Or.inr (he ▸ List.mem_singleton_self _)))
    show getValue (getValueOrDefault m.mappings r.2 m.primary_key).2 j = _
    rw [g3 j hjp, f2 j hjf]

/-- Witness: the argument list built on the concrete `User` model with only the key set. -/
theorem save_args_semantics_witness :
    (saveArgsRun userMeta [("id", Val.vInt 7)]).1 =
      (userMeta.fields ++ [userMeta.primary_key]).map
        (effectiveValue userMeta.mappings [("id", Val.vInt 7)]) :=
  (save_args_semantics userMeta [("id", Val.vInt 7)] (by decide)).1

/-- C8: `find(pk)` runs the select template plus the primary-key filter with `[pk]` and fetch-limit 1, returning exactly the head of the result set — so an explicit `none`, not an error and not a default record, when no row matches; `findNumber` likewise returns `ok none`, not zero and not an error, when its query matches zero rows. -/
theorem find_absent_semantics (db : String → List Val → List Row) (m : Meta)
    (pk : Val) (sf : String) (w : Option String) (args : Option (List Val)) :
    find db m pk =
      (db (m.selectT ++ " where `" ++ m.primary_key ++ "`=?") [pk]).head? ∧
    ((∀ sql a, db sql a = []) →
      find db m pk = none ∧ findNumber db m sf w args = .ok none) := by
  constructor
  · unfold find selectModel
    cases hdb2 : db (m.selectT ++ " where `" ++ m.primary_key ++ "`=?") [pk] with
    | nil => simp [hdb2]
    | cons r rest => simp [hdb2]
  · intro hdb
    constructor
    · simp [find, selectModel, hdb]
    · simp [findNumber, selectModel, hdb]

/-- Witness: both finders against an empty database. -/
theorem find_absent_semantics_witness :
    find dbEmpty userMeta (Val.vInt 1) = none ∧
    findNumber dbEmpty userMeta "count(`id`)" none none = .ok none :=
  (find_absent_semantics dbEmpty userMeta (Val.vInt 1) "count(`id`)" none
    none).2 (fun _ _ => rfl)

/-- C9: when the underlying statement executes without a driver-level error and reports any affected-row count `n`, `save`, `update` and `remove` all complete normally, returning only the warning flag `n != 1`; no count is ever raised to the caller. -/
theorem row_count_mismatch_soft (env : DBEnv) (m : Meta) (store : Store)
    (n : Nat) (h : env.execR = fun _ _ => Except.ok n) :
    saveRun env m store = .ok (n != 1) ∧
    updateRun env m store = .ok (n != 1) ∧
    removeRun env m store = .ok (n != 1) := by
  refine ⟨?_, ?_, ?_⟩ <;> simp [saveRun, updateRun, removeRun, executeModel, h]

/-- Witness: all three operations completing normally with affected-row count 3. -/
theorem row_count_mismatch_soft_witness :
    saveRun envRows3 userMeta [("id", Val.vInt 7)] = .ok true ∧
    updateRun envRows3 userMeta [("id", Val.vInt 7)] = .ok true ∧
    removeRun envRows3 userMeta [("id", Val.vInt 7)] = .ok true :=
  row_count_mismatch_soft envRows3 userMeta [("id", Val.vInt 7)] 3 rfl

/-- C10: `findAll` with a caller-supplied args list hands `select` that same list with the limit's bound values appended — one value for an integer limit, both values in order for a pair — so the list returned by one call, reused as the next call's args, accumulates both calls' limit arguments; with no args list a fresh empty list is used. -/
theorem findAll_args_accumulate (m : Meta) (w o : Option String)
    (args0 : List Val) (n n' a b : Int) :
    (∃ sql, findAllQuery m w (some args0) o (some (.int n)) =
      .ok (sql, args0 ++ [.vInt n])) ∧
    (∃ sql, findAllQuery m w (some args0) o (some (.tup [a, b])) =
      .ok (sql, args0 ++ [.vInt a, .vInt b])) ∧
    (∃ sql sql',
      findAllQuery m w (some args0) o (some (.int n)) =
        .ok (sql, args0 ++ [.vInt n]) ∧
      findAllQuery m w (some (args0 ++ [.vInt n])) o (some (.int n')) =
        .ok (sql', (args0 ++ [.vInt n]) ++ [.vInt n'])) ∧
    (∃ sql, findAllQuery m w none o (some (.int n)) =
      .ok (sql, [.vInt n])) := by
  exact ⟨⟨_, rfl⟩, ⟨_, rfl⟩, ⟨_, _, rfl, rfl⟩, ⟨_, rfl⟩⟩

/-- Witness: an integer limit on the concrete `User` model with a where clause. -/
theorem findAll_limit_clause_witness :
    findAllQuery userMeta (some "`email`=?") (some [Val.vStr "a"]) none
        (some (.int 5)) =
      .ok (userMeta.selectT ++ " where " ++ "`email`=?" ++ "" ++ " limit ?",
        [Val.vStr "a", Val.vInt 5]) :=
  (findAll_limit_clause userMeta (some "`email`=?") none [Val.vStr "a"]
    (fun s hs => by cases hs; decide) (fun s hs => Option.noConfusion hs)
    _ rfl).1 5

end Orm
